import Mathlib

/-
Shallow embedding of the matrix-multiplication core in `src/src/matrix.rs`.

Modelling conventions:
  * `f64` values are modelled as exact integers (`ℤ`).  Every claim settled
    here either involves no floating-point arithmetic at all (shapes, lengths,
    termination, data movement) or only small-integer values, on which `f64`
    multiplication and addition are exact and agree with integer arithmetic;
    no operation of the code divides, so integer values are closed under all
    modelled operations.
  * A Rust panic (a failed `assert_eq!`, an out-of-bounds slice or index, an
    `unwrap` of `None`, a division by zero) is modelled by `Option`: `none`
    means the operation panics, `some x` means it returns `x`.
  * The runtime test `is_x86_feature_detected!("avx2")` is modelled by an
    explicit `avx2 : Bool` parameter of the `Mul` implementation.
-/

namespace MatMult

/-- Model of the Rust struct `FloatMatrix { data: Vec<f64>, dim: (usize, usize) }`.
`dim.1` is the width (Rust `dim.0`), `dim.2` is the height (Rust `dim.1`). -/
structure FloatMatrix where
  data : List ℤ
  dim : Nat × Nat
deriving DecidableEq

/-- Model of `FloatMatrix::new`: `assert_eq!(data.len(), width*height)` then
construct; the failed assertion is `none`. -/
def FloatMatrix.new (data : List ℤ) (width height : Nat) : Option FloatMatrix :=
  if data.length = width * height then some ⟨data, (width, height)⟩ else none

/-- Model of `FloatMatrix::get_row`: the slice `&self.data[n*w..(n+1)*w]`
(with `w = self.dim.0`); an out-of-range slice panics, hence `none`. -/
def FloatMatrix.get_row (m : FloatMatrix) (n : Nat) : Option (List ℤ) :=
  if (n + 1) * m.dim.1 ≤ m.data.length then
    some ((m.data.drop (n * m.dim.1)).take m.dim.1)
  else none

/-- Model of the index-remapping closure in `get_transpose`:
`|n| (n / self.dim.1) + ((n % self.dim.1) * self.dim.0)` followed by
`self.data.get(n).unwrap()`.  Rust division by zero and a failed `unwrap`
both panic, hence `none`. -/
def transposeRead (m : FloatMatrix) (n : Nat) : Option ℤ :=
  if m.dim.2 = 0 then none
  else m.data.get? (n / m.dim.2 + n % m.dim.2 * m.dim.1)

/-- Model of `FloatMatrix::get_transpose`: map the remapping over
`0..self.data.len()` and swap the dimensions. -/
def FloatMatrix.get_transpose (m : FloatMatrix) : Option FloatMatrix :=
  ((List.range m.data.length).mapM (transposeRead m)).map
    fun transposed => ⟨transposed, (m.dim.2, m.dim.1)⟩

/-- The pure value of the transpose data for a width-`w`, height-`h` matrix
with flat contents `l`: what `get_transpose` produces when no read panics. -/
def tmap (w h : Nat) (l : List ℤ) : List ℤ :=
  (List.range l.length).map fun n => l.getD (n / h + n % h * w) 0

/-- Model of the innermost loop of `naive_mult`: for one output row `row` of
the left operand and one output column `col_i`, the code pushes
`val1 * rhs.get_row(i)[col_i]` for every `(i, val1)` in `row.iter().enumerate()`
(note: the products are pushed individually, they are never accumulated). -/
def naiveCell (rhs : FloatMatrix) (row : List ℤ) (col_i : Nat) : Option (List ℤ) :=
  row.enum.mapM fun iv =>
    (rhs.get_row iv.1).bind fun r2 => (r2.get? col_i).map fun val2 => iv.2 * val2

/-- Model of one `row_i` iteration of `naive_mult`: fetch the row slice, loop
over the output columns `0..rhs.dim.0`, concatenating everything pushed. -/
def naiveRowBlock (self rhs : FloatMatrix) (row_i : Nat) : Option (List ℤ) :=
  (self.get_row row_i).bind fun row =>
    ((List.range rhs.dim.1).mapM (naiveCell rhs row)).map List.flatten

/-- Model of `FloatMatrix::naive_mult`: the triple loop pushing products into
`new_data`, with result dimensions `(rhs.dim.0, self.dim.1)`. -/
def FloatMatrix.naive_mult (self rhs : FloatMatrix) : Option FloatMatrix :=
  ((List.range self.dim.2).mapM (naiveRowBlock self rhs)).map
    fun blocks => ⟨blocks.flatten, (rhs.dim.1, self.dim.2)⟩

/-- Elementwise product then sum, the model of
`(next_simd_vector_one * next_simd_vector_two).reduce_sum()`. -/
def dotList : List ℤ → List ℤ → ℤ
  | a :: as, b :: bs => a * b + dotList as bs
  | _, _ => 0

/-- Dot product of the width-`lanes` chunks of both operands starting at
`offset` (the model of loading `&v[current_len..current_len+LANES]` into a
SIMD register on each side, multiplying and reducing). -/
def chunkDot (v1 v2 : List ℤ) (offset lanes : Nat) : ℤ :=
  dotList ((v1.drop offset).take lanes) ((v2.drop offset).take lanes)

/-- Model of one expansion of the `lane_size_mult` block: if the remaining
length is at least `lanes`, consume a width-`lanes` chunk at offset
`v1.len() - remaining`, add its dot product to the running sum and decrease
the remaining length by `lanes`; otherwise leave the state unchanged.
The state is `(remaining_length, sum)`. -/
def lane_size_mult (v1 v2 : List ℤ) (lanes : Nat) (s : Nat × ℤ) : Nat × ℤ :=
  if lanes ≤ s.1 then
    (s.1 - lanes, s.2 + chunkDot v1 v2 (v1.length - s.1) lanes)
  else s

/-- Model of the `remaining_length == 1` tail of the loop body: multiply the
two last elements directly and set the remaining length to 0. -/
def simdFinish (v1 v2 : List ℤ) (s : Nat × ℤ) : Nat × ℤ :=
  if s.1 = 1 then (0, s.2 + v1.getLast?.getD 0 * v2.getLast?.getD 0) else s

/-- Model of one iteration of the `while remaining_length > 0` loop body in
`execute_mult_sum_simd`: attempt the lane widths 64, 32, 16, 8, 4, 2 in that
order, then the single-element remainder case. -/
def simdLoopBody (v1 v2 : List ℤ) (s : Nat × ℤ) : Nat × ℤ :=
  simdFinish v1 v2
    (lane_size_mult v1 v2 2 (lane_size_mult v1 v2 4 (lane_size_mult v1 v2 8
      (lane_size_mult v1 v2 16 (lane_size_mult v1 v2 32
        (lane_size_mult v1 v2 64 s))))))

/-- Fuelled unfolding of the `while remaining_length > 0` loop; `v1.length`
units of fuel always suffice because every iteration strictly decreases the
remaining length (proved below). -/
def simdLoop (v1 v2 : List ℤ) : Nat → Nat × ℤ → Nat × ℤ
  | 0, s => s
  | fuel + 1, s => if s.1 = 0 then s else simdLoop v1 v2 fuel (simdLoopBody v1 v2 s)

/-- Model of `execute_mult_sum_simd`: assert equal lengths (panic = `none`),
then run the cascade loop starting from `(v1.len(), 0.0)`. -/
def execute_mult_sum_simd (v1 v2 : List ℤ) : Option ℤ :=
  if v1.length = v2.length then some (simdLoop v1 v2 v1.length (v1.length, 0)).2
  else none

/-- Model of the column-staging loop of the SIMD multiply path: the buffer of
`rhs.get_row(col_val)[col]` for `col_val in 0..rhs.dim.1`. -/
def buildCol (rhs : FloatMatrix) (col : Nat) : Option (List ℤ) :=
  (List.range rhs.dim.2).mapM fun col_val =>
    (rhs.get_row col_val).bind fun r => r.get? col

/-- Model of `<FloatMatrix as Mul>::mul`, with the runtime AVX2 probe as an
explicit parameter: degenerate shapes short-circuit to an empty matrix, a
missing AVX2 feature delegates to `naive_mult`, and the vectorized path
asserts `self.dim.0 == rhs.dim.1`, stages the columns of `rhs` and computes
each output cell with `execute_mult_sum_simd`. -/
def FloatMatrix.mul (avx2 : Bool) (self rhs : FloatMatrix) : Option FloatMatrix :=
  if self.dim.1 = 0 ∨ self.dim.2 = 0 ∨ rhs.dim.1 = 0 ∨ rhs.dim.2 = 0 then
    FloatMatrix.new [] 0 0
  else if avx2 = false then
    self.naive_mult rhs
  else if self.dim.1 = rhs.dim.2 then
    ((List.range rhs.dim.1).mapM (buildCol rhs)).bind fun simd_cols =>
      (((List.range self.dim.2).mapM fun row =>
        (self.get_row row).bind fun row_simd =>
          simd_cols.mapM fun col => execute_mult_sum_simd row_simd col).map
        fun rows => ⟨rows.flatten, (rhs.dim.1, self.dim.2)⟩)
  else none

/-- C10: `FloatMatrix::new` fails exactly when `values.len() != width*height`,
and otherwise returns the matrix holding those values with those dimensions. -/
theorem new_fails_iff_length_mismatch (v : List ℤ) (w h : Nat) :
    (FloatMatrix.new v w h = none ↔ v.length ≠ w * h) ∧
    (v.length = w * h → FloatMatrix.new v w h = some ⟨v, (w, h)⟩) := by
  refine ⟨⟨fun hn hl => ?_, fun hl => ?_⟩, fun hl => ?_⟩
  · rw [FloatMatrix.new, if_pos hl] at hn
    exact Option.noConfusion hn
  · rw [FloatMatrix.new, if_neg hl]
  · rw [FloatMatrix.new, if_pos hl]

/-- Witness for C10: a concrete successful construction. -/
theorem new_fails_iff_length_mismatch_witness :
    FloatMatrix.new [5, 6] 2 1 = some ⟨[5, 6], (2, 1)⟩ :=
  (new_fails_iff_length_mismatch [5, 6] 2 1).2 (by decide)

/-- C5: whenever one operand has width 0 or height 0, the multiply returns the
empty 0-by-0 matrix under either strategy, with no shape check and no failure. -/
theorem mul_degenerate_returns_empty (avx2 : Bool) (a b : FloatMatrix)
    (h : a.dim.1 = 0 ∨ a.dim.2 = 0 ∨ b.dim.1 = 0 ∨ b.dim.2 = 0) :
    FloatMatrix.mul avx2 a b = some ⟨[], (0, 0)⟩ := by
  rw [FloatMatrix.mul, if_pos h]
  rfl

/-- Witness for C5: a width-0 left operand against an incompatibly shaped right
operand still yields the empty matrix, on both strategies. -/
theorem mul_degenerate_returns_empty_witness :
    FloatMatrix.mul true ⟨[], (0, 5)⟩ ⟨[1, 2, 3], (3, 1)⟩ = some ⟨[], (0, 0)⟩ ∧
    FloatMatrix.mul false ⟨[], (0, 5)⟩ ⟨[1, 2, 3], (3, 1)⟩ = some ⟨[], (0, 0)⟩ :=
  ⟨mul_degenerate_returns_empty true ⟨[], (0, 5)⟩ ⟨[1, 2, 3], (3, 1)⟩ (Or.inl rfl),
   mul_degenerate_returns_empty false ⟨[], (0, 5)⟩ ⟨[1, 2, 3], (3, 1)⟩ (Or.inl rfl)⟩

/-- C1: on the compatible 2-by-2 pair with entries 1..4 the vectorized path and
the scalar `naive_mult` fallback return different matrices: `naive_mult` pushes
every partial product without accumulating, so the two paths do not agree. -/
theorem vectorized_and_naive_disagree :
    FloatMatrix.mul true ⟨[1, 2, 3, 4], (2, 2)⟩ ⟨[1, 2, 3, 4], (2, 2)⟩ =
      some ⟨[7, 10, 15, 22], (2, 2)⟩ ∧
    FloatMatrix.mul false ⟨[1, 2, 3, 4], (2, 2)⟩ ⟨[1, 2, 3, 4], (2, 2)⟩ =
      some ⟨[1, 6, 2, 8, 3, 12, 6, 16], (2, 2)⟩ := by
  exact ⟨by decide, by decide⟩

/-- C2: `naive_mult` of the 2-by-2 identity with a 2-by-2 matrix returns
the eight individual partial products rather than the four accumulated dot
products, so the flat data does not have `rhs.width * lhs.height` elements. -/
theorem naive_mult_does_not_accumulate :
    FloatMatrix.naive_mult ⟨[1, 0, 0, 1], (2, 2)⟩ ⟨[5, 6, 7, 8], (2, 2)⟩ =
      some ⟨[5, 0, 6, 0, 0, 7, 0, 8], (2, 2)⟩ ∧
    Option.map (fun r : FloatMatrix => r.data.length)
        (FloatMatrix.naive_mult ⟨[1, 0, 0, 1], (2, 2)⟩ ⟨[5, 6, 7, 8], (2, 2)⟩) ≠
      some (2 * 2) := by
  exact ⟨by decide, by decide⟩

/-- C4: `naive_mult` returns a matrix that violates the construction-time
invariant `data.len() == dim.0 * dim.1`: a 3-by-1 times 1-by-3 product carries
three data elements under a claimed 1-by-1 dimension. -/
theorem naive_mult_breaks_length_invariant :
    FloatMatrix.naive_mult ⟨[1, 2, 3], (3, 1)⟩ ⟨[4, 5, 6], (1, 3)⟩ =
      some ⟨[4, 10, 18], (1, 1)⟩ ∧
    (FloatMatrix.mk [4, 10, 18] (1, 1)).data.length ≠
      (FloatMatrix.mk [4, 10, 18] (1, 1)).dim.1 * (FloatMatrix.mk [4, 10, 18] (1, 1)).dim.2 := by
  exact ⟨by decide, by decide⟩

/-- C3: with all four dimensions nonzero and mismatched inner dimensions
(lhs width 1, rhs height 2) the vectorized strategy fails the shape assertion,
but the scalar fallback performs no shape check and returns a matrix. -/
theorem scalar_fallback_skips_shape_check :
    FloatMatrix.mul true ⟨[1], (1, 1)⟩ ⟨[1, 2], (1, 2)⟩ = none ∧
    FloatMatrix.mul false ⟨[1], (1, 1)⟩ ⟨[1, 2], (1, 2)⟩ = some ⟨[1], (1, 1)⟩ := by
  exact ⟨by decide, by decide⟩

/-- C9: the lane-cascade dot product on the two 6-element test sequences
yields 700, and on the two 100-element test sequences yields 5031835050. -/
theorem simd_dot_product_test_vectors :
    execute_mult_sum_simd [0, 1, 2, 3, 4, 5] [10, 20, 30, 40, 50, 60] = some 700 ∧
    execute_mult_sum_simd ((List.range 100).map fun x => ((9900 + x : Nat) : ℤ))
      ((List.range 100).map fun x => ((x * 100 + 99 : Nat) : ℤ)) = some 5031835050 := by
  exact ⟨by decide, by set_option maxRecDepth 10000 in decide⟩

/-- A `List.mapM` over `Option` in which every element succeeds equals the
corresponding plain `List.map`. -/
theorem mapM_eq_map_of_some {α β : Type} (f : α → Option β) (g : α → β) :
    ∀ l : List α, (∀ x ∈ l, f x = some (g x)) → l.mapM f = some (l.map g)
  | [], _ => rfl
  | x :: xs, h => by
    have hx := h x (List.mem_cons_self x xs)
    have hxs := mapM_eq_map_of_some f g xs fun y hy => h y (List.mem_cons_of_mem x hy)
    rw [List.mapM_cons, hx, hxs]
    rfl

/-- For an in-range index, `get?` returns the `getD` value. -/
theorem get?_eq_some_getD {l : List ℤ} {n : Nat} (h : n < l.length) :
    l.get? n = some (l.getD n 0) := by
  rw [List.get?_eq_getElem?, List.getD_eq_getElem?_getD, List.getElem?_eq_getElem h]
  rfl

/-- The transpose index remapping stays inside the data. -/
theorem tIdx_lt (w h n : Nat) (hh : 0 < h) (hn : n < w * h) :
    n / h + n % h * w < w * h := by
  have hd : n / h < w := (Nat.div_lt_iff_lt_mul hh).mpr hn
  have hm : n % h < h := Nat.mod_lt n hh
  have h1 : n % h * w ≤ (h - 1) * w := Nat.mul_le_mul_right w (by omega)
  have h2 : (h - 1) * w = h * w - w := by rw [Nat.sub_mul, Nat.one_mul]
  have h3 : w ≤ h * w := Nat.le_mul_of_pos_left w hh
  have h4 : h * w = w * h := Nat.mul_comm h w
  omega

/-- Both dimensions of a nonempty well-formed matrix are positive. -/
theorem dims_pos (w h len : Nat) (wf : len = w * h) (hpos : 0 < len) :
    0 < w ∧ 0 < h := by
  constructor
  · rcases Nat.eq_zero_or_pos w with h0 | h0
    · subst h0; simp at wf; omega
    · exact h0
  · rcases Nat.eq_zero_or_pos h with h0 | h0
    · subst h0; simp at wf; omega
    · exact h0

theorem tmap_length (w h : Nat) (l : List ℤ) : (tmap w h l).length = l.length := by
  unfold tmap
  rw [List.length_map, List.length_range]

/-- Reading the pure transpose at `n` is reading the source at the remapped
index. -/
theorem tmap_get? (w h : Nat) (l : List ℤ) (wf : l.length = w * h) (n : Nat)
    (hn : n < l.length) :
    (tmap w h l).get? n = l.get? (n / h + n % h * w) := by
  have hh : 0 < h := (dims_pos w h l.length wf (by omega)).2
  have hidx : n / h + n % h * w < l.length := by
    rw [wf]
    exact tIdx_lt w h n hh (by omega)
  rw [get?_eq_some_getD hidx]
  unfold tmap
  rw [List.get?_eq_getElem?, List.getElem?_map, List.getElem?_range hn]
  rfl

/-- On a well-formed matrix no transpose read panics, so `get_transpose`
returns the pure transpose with swapped dimensions. -/
theorem get_transpose_eq_some (m : FloatMatrix)
    (wf : m.data.length = m.dim.1 * m.dim.2) :
    m.get_transpose = some ⟨tmap m.dim.1 m.dim.2 m.data, (m.dim.2, m.dim.1)⟩ := by
  have key : ∀ n ∈ List.range m.data.length,
      transposeRead m n =
        some (m.data.getD (n / m.dim.2 + n % m.dim.2 * m.dim.1) 0) := by
    intro n hn
    have hn' : n < m.data.length := List.mem_range.mp hn
    have hh : 0 < m.dim.2 := (dims_pos m.dim.1 m.dim.2 m.data.length wf (by omega)).2
    have hidx : n / m.dim.2 + n % m.dim.2 * m.dim.1 < m.data.length := by
      rw [wf]
      exact tIdx_lt m.dim.1 m.dim.2 n hh (by omega)
    rw [transposeRead, if_neg (Nat.pos_iff_ne_zero.mp hh)]
    exact get?_eq_some_getD hidx
  unfold FloatMatrix.get_transpose
  rw [mapM_eq_map_of_some (transposeRead m)
    (fun n => m.data.getD (n / m.dim.2 + n % m.dim.2 * m.dim.1) 0)
    (List.range m.data.length) key]
  rfl

/-- The index remapping applied twice with swapped dimensions is the identity
below `w * h`. -/
theorem tIdx_involution (w h n : Nat) (hw : 0 < w) (hh : 0 < h) (hn : n < w * h) :
    (n / w + n % w * h) / h + (n / w + n % w * h) % h * w = n := by
  have hd : n / w < h := by
    rw [Nat.div_lt_iff_lt_mul hw, Nat.mul_comm h w]
    exact hn
  have h1 : (n / w + n % w * h) / h = n % w := by
    rw [Nat.add_mul_div_right _ _ hh, Nat.div_eq_of_lt hd, Nat.zero_add]
  have h2 : (n / w + n % w * h) % h = n / w := by
    rw [Nat.add_mul_mod_self_right, Nat.mod_eq_of_lt hd]
  rw [h1, h2, Nat.mul_comm]
  exact Nat.mod_add_div n w

/-- The pure transpose is an involution on well-formed data. -/
theorem tmap_involution (w h : Nat) (l : List ℤ) (wf : l.length = w * h) :
    tmap h w (tmap w h l) = l := by
  have hlen : (tmap w h l).length = l.length := tmap_length w h l
  have hlen2 : (tmap h w (tmap w h l)).length = l.length := by
    rw [tmap_length, hlen]
  apply List.ext_get?
  intro n
  by_cases hn : n < l.length
  · have hw : 0 < w := (dims_pos w h l.length wf (by omega)).1
    have hh : 0 < h := (dims_pos w h l.length wf (by omega)).2
    have twf : (tmap w h l).length = h * w := by rw [hlen, wf, Nat.mul_comm]
    have hnt : n < (tmap w h l).length := by omega
    have step1 := tmap_get? h w (tmap w h l) twf n hnt
    have hk' := tIdx_lt h w n hw (show n < h * w by rw [Nat.mul_comm h w]; exact wf ▸ hn)
    have hk : n / w + n % w * h < l.length := by
      rw [wf, Nat.mul_comm w h]
      exact hk'
    have step2 := tmap_get? w h l wf _ hk
    have step3 : (n / w + n % w * h) / h + (n / w + n % w * h) % h * w = n :=
      tIdx_involution w h n hw hh (wf ▸ hn)
    rw [step1, step2, step3]
  · have h1 : (tmap h w (tmap w h l)).get? n = none := by
      rw [List.get?_eq_getElem?]
      exact List.getElem?_eq_none (by omega)
    have h2 : l.get? n = none := by
      rw [List.get?_eq_getElem?]
      exact List.getElem?_eq_none (by omega)
    rw [h1, h2]

/-- C7: on every well-formed matrix `get_transpose` succeeds, swaps the
dimensions, realizes the index remapping
`output[n] = input[n / out_width + (n % out_width) * in_width]` (the output
width being the input height), and applying it twice returns the original
matrix. -/
theorem get_transpose_correct (m : FloatMatrix)
    (wf : m.data.length = m.dim.1 * m.dim.2) :
    ∃ t, m.get_transpose = some t ∧ t.dim = (m.dim.2, m.dim.1) ∧
      (∀ n < t.data.length,
        t.data.get? n = m.data.get? (n / m.dim.2 + n % m.dim.2 * m.dim.1)) ∧
      t.get_transpose = some m := by
  obtain ⟨d, w, h⟩ := m
  refine ⟨⟨tmap w h d, (h, w)⟩, get_transpose_eq_some ⟨d, (w, h)⟩ wf, rfl, ?_, ?_⟩
  · intro n hn
    have hn' : n < d.length := by
      rw [show (FloatMatrix.mk (tmap w h d) (h, w)).data = tmap w h d from rfl,
        tmap_length] at hn
      exact hn
    exact tmap_get? w h d wf n hn'
  · have twf : (tmap w h d).length = h * w := by
      rw [tmap_length]
      rw [show (FloatMatrix.mk d (w, h)).data.length = d.length from rfl] at wf
      rw [wf, Nat.mul_comm]
    have e := get_transpose_eq_some ⟨tmap w h d, (h, w)⟩ twf
    rw [e]
    show some (FloatMatrix.mk (tmap h w (tmap w h d)) (w, h)) = _
    rw [tmap_involution w h d wf]

/-- Witness for C7 at a concrete 3-by-2 matrix. -/
theorem get_transpose_correct_witness :
    FloatMatrix.get_transpose ⟨[1, 2, 3, 4, 5, 6], (3, 2)⟩ =
      some ⟨[1, 4, 2, 5, 3, 6], (2, 3)⟩ ∧
    FloatMatrix.get_transpose ⟨[1, 4, 2, 5, 3, 6], (2, 3)⟩ =
      some ⟨[1, 2, 3, 4, 5, 6], (3, 2)⟩ := by
  obtain ⟨t, h1, _, _, h4⟩ := get_transpose_correct ⟨[1, 2, 3, 4, 5, 6], (3, 2)⟩ (by decide)
  have ev : FloatMatrix.get_transpose ⟨[1, 2, 3, 4, 5, 6], (3, 2)⟩ =
      some ⟨[1, 4, 2, 5, 3, 6], (2, 3)⟩ := by decide
  have ht : t = ⟨[1, 4, 2, 5, 3, 6], (2, 3)⟩ := by
    rw [ev] at h1
    exact (Option.some.inj h1).symm
  rw [ht] at h4
  exact ⟨ev, h4⟩

/-- A lane block never increases the remaining length. -/
theorem lane_size_mult_fst_le (v1 v2 : List ℤ) (lanes : Nat) (s : Nat × ℤ) :
    (lane_size_mult v1 v2 lanes s).1 ≤ s.1 := by
  rw [lane_size_mult]
  split
  · exact Nat.sub_le _ _
  · exact Nat.le_refl _

/-- A lane block that fires strictly decreases the remaining length. -/
theorem lane_size_mult_fst_lt (v1 v2 : List ℤ) (lanes : Nat) (s : Nat × ℤ)
    (h0 : 0 < lanes) (h : lanes ≤ s.1) : (lane_size_mult v1 v2 lanes s).1 < s.1 := by
  rw [lane_size_mult, if_pos h]
  exact Nat.sub_lt (Nat.lt_of_lt_of_le h0 h) h0

/-- A lane block whose width exceeds the remaining length does nothing. -/
theorem lane_size_mult_skip (v1 v2 : List ℤ) (lanes : Nat) (s : Nat × ℤ)
    (h : ¬ lanes ≤ s.1) : lane_size_mult v1 v2 lanes s = s := by
  rw [lane_size_mult, if_neg h]

/-- The single-element remainder step never increases the remaining length. -/
theorem simdFinish_fst_le (v1 v2 : List ℤ) (s : Nat × ℤ) :
    (simdFinish v1 v2 s).1 ≤ s.1 := by
  rw [simdFinish]
  split
  · exact Nat.zero_le _
  · exact Nat.le_refl _

/-- If at least two elements remain, the six-lane cascade strictly decreases
the remaining length (at worst the width-2 lane fires). -/
theorem cascade_fst_lt (v1 v2 : List ℤ) (s : Nat × ℤ) (h : 2 ≤ s.1) :
    (lane_size_mult v1 v2 2 (lane_size_mult v1 v2 4 (lane_size_mult v1 v2 8
      (lane_size_mult v1 v2 16 (lane_size_mult v1 v2 32
        (lane_size_mult v1 v2 64 s)))))).1 < s.1 := by
  set s64 := lane_size_mult v1 v2 64 s with hs64
  set s32 := lane_size_mult v1 v2 32 s64 with hs32
  set s16 := lane_size_mult v1 v2 16 s32 with hs16
  set s8 := lane_size_mult v1 v2 8 s16 with hs8
  set s4 := lane_size_mult v1 v2 4 s8 with hs4
  have le2 := lane_size_mult_fst_le v1 v2 2 s4
  have le4 := lane_size_mult_fst_le v1 v2 4 s8
  have le8 := lane_size_mult_fst_le v1 v2 8 s16
  have le16 := lane_size_mult_fst_le v1 v2 16 s32
  have le32 := lane_size_mult_fst_le v1 v2 32 s64
  rw [← hs4] at le4
  rw [← hs8] at le8
  rw [← hs16] at le16
  rw [← hs32] at le32
  by_cases h64 : 64 ≤ s.1
  · have hlt := lane_size_mult_fst_lt v1 v2 64 s (by omega) h64
    rw [← hs64] at hlt
    omega
  · have e64 : s64.1 = s.1 := by rw [hs64, lane_size_mult_skip v1 v2 64 s h64]
    by_cases h32 : 32 ≤ s.1
    · have hlt := lane_size_mult_fst_lt v1 v2 32 s64 (by omega) (by omega)
      rw [← hs32] at hlt
      omega
    · have e32 : s32.1 = s.1 := by
        rw [hs32, lane_size_mult_skip v1 v2 32 s64 (by omega), e64]
      by_cases h16 : 16 ≤ s.1
      · have hlt := lane_size_mult_fst_lt v1 v2 16 s32 (by omega) (by omega)
        rw [← hs16] at hlt
        omega
      · have e16 : s16.1 = s.1 := by
          rw [hs16, lane_size_mult_skip v1 v2 16 s32 (by omega), e32]
        by_cases h8 : 8 ≤ s.1
        · have hlt := lane_size_mult_fst_lt v1 v2 8 s16 (by omega) (by omega)
          rw [← hs8] at hlt
          omega
        · have e8 : s8.1 = s.1 := by
            rw [hs8, lane_size_mult_skip v1 v2 8 s16 (by omega), e16]
          by_cases h4 : 4 ≤ s.1
          · have hlt := lane_size_mult_fst_lt v1 v2 4 s8 (by omega) (by omega)
            rw [← hs4] at hlt
            omega
          · have e4 : s4.1 = s.1 := by
              rw [hs4, lane_size_mult_skip v1 v2 4 s8 (by omega), e8]
            have hlt := lane_size_mult_fst_lt v1 v2 2 s4 (by omega) (by omega)
            omega

/-- Every iteration of the while loop with nonzero remaining length strictly
decreases the remaining length. -/
theorem simdLoopBody_fst_lt (v1 v2 : List ℤ) (s : Nat × ℤ) (h : 0 < s.1) :
    (simdLoopBody v1 v2 s).1 < s.1 := by
  rcases Nat.lt_or_ge s.1 2 with h2 | h2
  · have h1 : s.1 = 1 := by omega
    rw [simdLoopBody, lane_size_mult_skip v1 v2 64 s (by omega),
      lane_size_mult_skip v1 v2 32 s (by omega),
      lane_size_mult_skip v1 v2 16 s (by omega),
      lane_size_mult_skip v1 v2 8 s (by omega),
      lane_size_mult_skip v1 v2 4 s (by omega),
      lane_size_mult_skip v1 v2 2 s (by omega),
      simdFinish, if_pos h1]
    show 0 < s.1
    exact h
  · have hc := cascade_fst_lt v1 v2 s h2
    have hf := simdFinish_fst_le v1 v2
      (lane_size_mult v1 v2 2 (lane_size_mult v1 v2 4 (lane_size_mult v1 v2 8
        (lane_size_mult v1 v2 16 (lane_size_mult v1 v2 32
          (lane_size_mult v1 v2 64 s))))))
    rw [simdLoopBody]
    omega

/-- With fuel at least the remaining length the loop drives the remaining
length to zero. -/
theorem simdLoop_fst_eq_zero (v1 v2 : List ℤ) (fuel : Nat) :
    ∀ s : Nat × ℤ, s.1 ≤ fuel → (simdLoop v1 v2 fuel s).1 = 0 := by
  induction fuel with
  | zero =>
    intro s hs
    rw [simdLoop]
    omega
  | succ n ih =>
    intro s hs
    by_cases h0 : s.1 = 0
    · rw [simdLoop, if_pos h0]
      exact h0
    · rw [simdLoop, if_neg h0]
      refine ih _ ?_
      have := simdLoopBody_fst_lt v1 v2 s (Nat.pos_of_ne_zero h0)
      omega

/-- C8: the lane cascade terminates.  For any state with nonzero remaining
length one iteration of the loop body (lane widths tried in the descending
order 64, 32, 16, 8, 4, 2, plus the single-element remainder case) strictly
decreases the remaining length; with fuel at least the remaining length the
loop reaches remaining length 0; and on equal-length inputs
`execute_mult_sum_simd` therefore returns a result. -/
theorem simd_cascade_terminates (v1 v2 : List ℤ) (s : Nat × ℤ) (fuel : Nat)
    (hlen : v1.length = v2.length) (hpos : 0 < s.1) (hfuel : s.1 ≤ fuel) :
    (simdLoopBody v1 v2 s).1 < s.1 ∧ (simdLoop v1 v2 fuel s).1 = 0 ∧
    execute_mult_sum_simd v1 v2 =
      some (simdLoop v1 v2 v1.length (v1.length, 0)).2 := by
  refine ⟨simdLoopBody_fst_lt v1 v2 s hpos, simdLoop_fst_eq_zero v1 v2 fuel s hfuel, ?_⟩
  rw [execute_mult_sum_simd, if_pos hlen]

/-- Witness for C8 at the concrete 3-element inputs. -/
theorem simd_cascade_terminates_witness :
    (simdLoopBody [1, 2, 3] [4, 5, 6] (3, 0)).1 < 3 ∧
    (simdLoop [1, 2, 3] [4, 5, 6] 3 (3, 0)).1 = 0 ∧
    execute_mult_sum_simd [1, 2, 3] [4, 5, 6] =
      some (simdLoop [1, 2, 3] [4, 5, 6] 3 (3, 0)).2 :=
  simd_cascade_terminates [1, 2, 3] [4, 5, 6] (3, 0) 3 rfl (by decide) (by decide)

/-- C6 counterexample: as stated the claim fails on the code.  A 4-by-2 matrix
cannot be constructed from the nine values 1..9 (the construction assertion
fires, exactly as in the repository's own `different_sized_small_matrix` test),
and on the scalar fallback the 3-by-3 self-product does not yield the expected
nine values either. -/
theorem mul_test_vectors_as_stated_fail :
    FloatMatrix.new [1, 2, 3, 4, 5, 6, 7, 8, 9] 4 2 = none ∧
    FloatMatrix.mul false ⟨[1, 2, 3, 4, 5, 6, 7, 8, 9], (3, 3)⟩
        ⟨[1, 2, 3, 4, 5, 6, 7, 8, 9], (3, 3)⟩ ≠
      some ⟨[30, 36, 42, 66, 81, 96, 102, 126, 150], (3, 3)⟩ := by
  exact ⟨by decide, by decide⟩

/-- C6 (amended): under the vectorized strategy, the 3-by-3 matrix holding
1..9 times itself yields flat data [30, 36, 42, 66, 81, 96, 102, 126, 150],
and the 4-by-2 matrix holding 1..8 times the 3-by-4 matrix holding 1..12
yields flat data [70, 80, 90, 158, 184, 210]. -/
theorem mul_test_vectors_vectorized :
    FloatMatrix.mul true ⟨[1, 2, 3, 4, 5, 6, 7, 8, 9], (3, 3)⟩
        ⟨[1, 2, 3, 4, 5, 6, 7, 8, 9], (3, 3)⟩ =
      some ⟨[30, 36, 42, 66, 81, 96, 102, 126, 150], (3, 3)⟩ ∧
    FloatMatrix.mul true ⟨[1, 2, 3, 4, 5, 6, 7, 8], (4, 2)⟩
        ⟨[1, 2, 3, 4, 5, 6, 7, 8, 9, 10, 11, 12], (3, 4)⟩ =
      some ⟨[70, 80, 90, 158, 184, 210], (3, 2)⟩ := by
  exact ⟨by decide, by decide⟩

end MatMult
